import Mathlib

/-!
Verification development for the medical-summarizer repository.

The two algorithmic subsystems are embedded shallowly:
* the grounding/validation state machine of `grounding_agent_advanced.py`
  (`validate_response`, `_offline_validation`, `_low_resource_validation`,
  `_parse_validation_response`);
* the KB fingerprint engine and index build/load manager of
  `apps/api/retriever.py` (`_fingerprint_files`, `build_vectorstore`,
  `_load_if_fresh`, `build_or_load_index`);
* the structured-block extractor of `app.py`
  (`extract_risks_block`, `parse_risks_json`).

Modelling conventions:
* Python `str` is modelled by Lean `String` (a wrapper around `List Char`);
  only ASCII case mapping and ASCII whitespace matter for the checked
  properties, matching the literals that appear in the source.
* Python `float` confidences are modelled by exact rationals `ℚ`
  (0.6 ↦ 3/5, 0.95 ↦ 19/20, ...).
* External collaborators (the Anthropic client, `json.loads`, the
  filesystem, the embedding backend) are parameters of the embedded
  functions; one parameter per side-effecting call site.
* The recursive `validate_response` is embedded with an explicit fuel
  argument that is consumed only by the retry recursion; `none` means the
  Python function does not return within that recursion depth.
-/

set_option linter.unusedVariables false

/-! ## Python string primitives -/

/-- ASCII whitespace, as recognised by Python `str.strip` and `re`'s `\s`
on the ASCII range. -/
def isPySpace (c : Char) : Bool :=
  c == ' ' || c == '\t' || c == '\n' || c == '\r' || c == '\x0b' || c == '\x0c'

/-- Does `needle` occur at the start of `hay`? (list-of-chars level). -/
def matchesAt : List Char → List Char → Bool
  | [], _ => true
  | _ :: _, [] => false
  | a :: as, b :: bs => a == b && matchesAt as bs

/-- Python's substring test `needle in hay` (list-of-chars level). -/
def hasSub (needle : List Char) : List Char → Bool
  | [] => matchesAt needle []
  | c :: rest => matchesAt needle (c :: rest) || hasSub needle rest

/-- Python `needle in hay` on strings. -/
def strHas (hay needle : String) : Bool := hasSub needle.data hay.data

/-- Python `str.lower()` (ASCII). -/
def strLower (s : String) : String := ⟨s.data.map Char.toLower⟩

/-- Python `str.upper()` (ASCII). -/
def strUpper (s : String) : String := ⟨s.data.map Char.toUpper⟩

/-- Python `str.strip()` on a list of chars. -/
def pyStripL (s : List Char) : List Char :=
  ((s.dropWhile isPySpace).reverse.dropWhile isPySpace).reverse

/-- Python `sep.join(parts)`. -/
def strJoin (sep : String) : List String → String
  | [] => ""
  | [x] => x
  | x :: xs => x ++ sep ++ strJoin sep xs

/-- Index of the first occurrence of the substring `needle` in `hay`
(Python `hay.find(needle)`, with `none` for -1). -/
def idxOfSub (needle : List Char) : List Char → Option Nat
  | [] => if matchesAt needle [] then some 0 else none
  | c :: rest =>
    if matchesAt needle (c :: rest) then some 0
    else (idxOfSub needle rest).map (· + 1)

/-- Index of the first occurrence of char `c` (Python `s.find(c)`). -/
def firstIdxOf (c : Char) : List Char → Option Nat
  | [] => none
  | d :: ds => if d == c then some 0 else (firstIdxOf c ds).map (· + 1)

/-- Index of the last occurrence of char `c` (Python `s.rfind(c)`). -/
def lastIdxOf (c : Char) (s : List Char) : Option Nat :=
  (firstIdxOf c s.reverse).map (fun i => s.length - 1 - i)

/-- Everything after the first occurrence of `sep` (Python
`s.split(sep)[1]` truncated at the following `sep` by the caller). -/
def afterFirst (sep s : List Char) : Option (List Char) :=
  (idxOfSub sep s).map (fun i => s.drop (i + sep.length))

/-- Everything before the first occurrence of `sep`, or all of `s`
(Python `s.split(sep)[0]`). -/
def upToFirst (sep s : List Char) : List Char :=
  match idxOfSub sep s with
  | some i => s.take i
  | none => s

/-! ## Grounding validator: data model (`grounding_agent_advanced.py`) -/

/-- Operating modes for the grounding agent (`ValidatorMode`). -/
inductive ValidatorMode where
  | enabled
  | disabled
  | offline
  | low_resource
deriving DecidableEq, Repr

/-- Configuration for the grounding agent (`GroundingConfig`). Confidence
values are exact rationals standing for the source's floats. -/
structure GroundingConfig where
  mode : ValidatorMode := ValidatorMode.enabled
  confidence_threshold : ℚ := 3/5
  max_retries : Nat := 2
  allow_offline_fallback : Bool := true
  enable_logging : Bool := true
deriving DecidableEq, Repr

/-- Result of validating an LLM response (`ValidationResult`). -/
structure ValidationResult where
  is_valid : Bool
  confidence : ℚ
  issues : List String
  corrections : Option String
  safety_flags : List String
  reasoning : String
  requires_review : Bool := false
  retry_count : Nat := 0
deriving DecidableEq, Repr

/-- One entry of the `conversation_history` list of dicts
(`\x7b"role": ..., "content": ...\x7d`). -/
structure Message where
  role : String
  content : String
deriving DecidableEq, Repr

/-- A JSON value, as produced by `json.loads`. -/
inductive Json where
  | null
  | bool (b : Bool)
  | num (q : ℚ)
  | str (s : String)
  | arr (elems : List Json)
  | obj (fields : List (String × Json))

/-- Key lookup in a JSON object (Python `dict.get(key)`). -/
def jsonLookup (key : String) : List (String × Json) → Option Json
  | [] => none
  | kv :: rest => if kv.1 == key then some kv.2 else jsonLookup key rest

/-! ## Grounding validator: offline and low-resource heuristics -/

/-- The `dangerous_keywords` table of `_offline_validation`. -/
def dangerous_keywords : List (String × String) :=
  [("definitely has", "OVERCONFIDENT_DIAGNOSIS"),
   ("will definitely", "OVERCONFIDENT_DIAGNOSIS"),
   ("stop taking", "DANGEROUS_MEDICAL_ADVICE"),
   ("don\x27t take", "DANGEROUS_MEDICAL_ADVICE"),
   ("cure", "CURE_CLAIM"),
   ("cured", "CURE_CLAIM")]

/-- The `critical_keywords` table of `_low_resource_validation`. -/
def critical_keywords : List (String × String) :=
  [("stop taking medication", "CRITICAL_SAFETY"),
   ("ignore doctor", "CRITICAL_SAFETY"),
   ("don\x27t seek medical help", "CRITICAL_SAFETY")]

/-- The keyword loop shared in shape by both heuristic validators: for each
matching keyword append one issue and one safety flag, in lockstep. -/
def keywordScan (response_lower : String) (mkIssue : String → String)
    (kws : List (String × String)) : List String × List String :=
  kws.foldl
    (fun acc kf =>
      if strHas response_lower kf.1 then
        (acc.1 ++ [mkIssue kf.1], acc.2 ++ [kf.2])
      else acc)
    ([], [])

/-- `_offline_validation`: keyword heuristics, no API calls. The
`conversation_history` parameter is accepted but never read, as in the
source. -/
def _offline_validation (llm_response : String) (medical_report : String)
    (conversation_history : List Message) : ValidationResult :=
  let response_lower := strLower llm_response
  let scanned := keywordScan response_lower
    (fun keyword => "Contains dangerous keyword: \x27" ++ keyword ++ "\x27")
    dangerous_keywords
  let report_lower := strLower medical_report
  let scanned2 :=
    if strHas response_lower "diabetes" && !(strHas report_lower "diabetes") then
      (scanned.1 ++ ["Mentions \x27diabetes\x27 but not in medical report"],
       scanned.2 ++ ["POSSIBLE_HALLUCINATION"])
    else scanned
  let is_valid := scanned2.1.length == 0
  { is_valid := is_valid
    confidence := if is_valid then 1/2 else 3/10
    issues := scanned2.1
    corrections := none
    safety_flags := scanned2.2
    reasoning := "Offline validation using keyword matching (limited accuracy)" }

/-- `_low_resource_validation`: only the critical safety phrases. -/
def _low_resource_validation (llm_response : String) (medical_report : String) :
    ValidationResult :=
  let response_lower := strLower llm_response
  let scanned := keywordScan response_lower
    (fun keyword => "CRITICAL: Contains \x27" ++ keyword ++ "\x27")
    critical_keywords
  let is_valid := scanned.1.length == 0
  { is_valid := is_valid
    confidence := if is_valid then 7/10 else 2/5
    issues := scanned.1
    corrections := none
    safety_flags := scanned.2
    reasoning := "Low-resource validation - only critical safety checks" }

/-! ## Grounding validator: response parsing -/

/-- Python truthiness of a JSON value (how a raw `result_data.get`
value behaves in later boolean positions). -/
def Json.truthy : Json → Bool
  | Json.null => false
  | Json.bool b => b
  | Json.num q => !(q == 0)
  | Json.str s => !(s == "")
  | Json.arr elems => !elems.isEmpty
  | Json.obj fields => !fields.isEmpty

/-- Numeric reading of a JSON value where the source compares it with a
float threshold; Python `bool` is an `int` subtype, so `true`/`false`
read as 1/0. (A non-numeric value would raise `TypeError` later in
Python; such schema-violating responses are coerced to 0 here and are
not exercised by any theorem below.) -/
def Json.asNum : Json → ℚ
  | Json.num q => q
  | Json.bool b => if b then 1 else 0
  | _ => 0

/-- JSON array of strings, as expected for `issues`/`safety_flags`
(non-string elements are dropped; schema-conforming responses only are
exercised by the theorems). -/
def Json.asStrList : Json → List String
  | Json.arr elems =>
    elems.foldl (fun acc e => match e with
      | Json.str s => acc ++ [s]
      | _ => acc) []
  | _ => []

/-- The markdown-fence stripping of `_parse_validation_response`:
`response_text.split("\x60\x60\x60json")[1].split("\x60\x60\x60")[0].strip()` etc. Taking
everything after the first fence and cutting at the next fence agrees
with Python's split-and-index on all inputs reaching these branches. -/
def stripFences (response_text : String) : String :=
  let t := response_text.data
  if hasSub "\x60\x60\x60json".data t then
    match afterFirst "\x60\x60\x60json".data t with
    | some rest => ⟨pyStripL (upToFirst "\x60\x60\x60".data rest)⟩
    | none => response_text
  else if hasSub "\x60\x60\x60".data t then
    match afterFirst "\x60\x60\x60".data t with
    | some rest => ⟨pyStripL (upToFirst "\x60\x60\x60".data rest)⟩
    | none => response_text
  else response_text

/-- `_parse_validation_response`, parameterised by `json.loads`
(`jl`; `Except.error` models `json.JSONDecodeError`). Fields are read
with `dict.get` defaults; `retry_count` is never set and keeps its
dataclass default 0. -/
def _parse_validation_response (jl : String → Except String Json)
    (response_text : String) : ValidationResult :=
  let json_str := stripFences response_text
  match jl json_str with
  | Except.ok result_data =>
    let fields := match result_data with
      | Json.obj kvs => kvs
      | _ => []
    { is_valid := (match jsonLookup "is_valid" fields with
        | some v => v.truthy
        | none => false)
      confidence := (match jsonLookup "confidence" fields with
        | some v => v.asNum
        | none => 0)
      issues := (match jsonLookup "issues" fields with
        | some v => v.asStrList
        | none => [])
      corrections := (match jsonLookup "corrections" fields with
        | some (Json.str s) => some s
        | _ => none)
      safety_flags := (match jsonLookup "safety_flags" fields with
        | some v => v.asStrList
        | none => [])
      reasoning := (match jsonLookup "reasoning" fields with
        | some (Json.str s) => s
        | _ => "") }
  | Except.error _ =>
    { is_valid := false
      confidence := 1/2
      issues := ["Validation parsing error"]
      corrections := none
      safety_flags := ["VALIDATION_ERROR"]
      reasoning := "Could not parse validator response" }

/-! ## Grounding validator: main entry point -/

/-- STEP 3 of `validate_response`: compress the last five turns of the
conversation history (`history[-5:]`). -/
def conversationStr (conversation_history : List Message) : String :=
  strJoin "\n"
    ((conversation_history.drop (conversation_history.length - 5)).map
      (fun msg => strUpper msg.role ++ ": " ++ msg.content))

/-- STEP 4 of `validate_response`: the grounding prompt f-string. -/
def groundingPrompt (medical_report conversation_str llm_response : String) :
    String :=
  "You are a medical safety validator. Validate this LLM response for:\n" ++
  "1. Hallucinations (claims without support in context)\n" ++
  "2. Medical accuracy issues\n" ++
  "3. Safety concerns (inappropriate advice, dangerous recommendations)\n" ++
  "4. Over-confident claims (presenting uncertainty as fact)\n\n" ++
  "MEDICAL REPORT:\n" ++ medical_report ++ "\n\n" ++
  "CONVERSATION CONTEXT:\n" ++ conversation_str ++ "\n\n" ++
  "LLM RESPONSE TO VALIDATE:\n" ++ llm_response ++ "\n\n" ++
  "Respond ONLY with valid JSON:\n" ++
  "\x7b\n    \"is_valid\": true/false,\n    \"confidence\": 0.0-1.0,\n" ++
  "    \"issues\": [\"issue1\", \"issue2\"],\n" ++
  "    \"corrections\": \"corrected version or null\",\n" ++
  "    \"safety_flags\": [\"flag1\", \"flag2\"],\n" ++
  "    \"reasoning\": \"brief explanation\"\n\x7d\n\n" ++
  "Be very STRICT about hallucinations.\n"

/-- The retry configuration built inside `validate_response`: the
threshold is relaxed by the multiplicative factor 0.95 = 19/20. -/
def retryConfig (config : GroundingConfig) : GroundingConfig :=
  { mode := config.mode
    confidence_threshold := config.confidence_threshold * (19/20)
    max_retries := config.max_retries
    allow_offline_fallback := config.allow_offline_fallback
    enable_logging := config.enable_logging }

/-- `validate_response`, the multi-mode validation state machine.

External collaborators are parameters, indexed by the (0-based) number of
the nested invocation so that successive remote calls may behave
differently:
* `clientInit n` — construction of the Anthropic client in invocation `n`
  (`Except.error` models a raised exception);
* `oracle n prompt` — the remote `messages.create` call of invocation `n`
  on the given prompt, returning the response text or raising;
* `jl` — `json.loads`, shared by `_parse_validation_response`.

`fuel` bounds the depth of the retry recursion (which the source performs
by calling itself); it is consumed only when the source recurses, so
`none` means the Python call does not return within `fuel` nested
retries. -/
def validate_response (clientInit : Nat → Except String Unit)
    (oracle : Nat → String → Except String String)
    (jl : String → Except String Json)
    (llm_response : String) (conversation_history : List Message)
    (medical_report : String) :
    Nat → GroundingConfig → Nat → Option ValidationResult
  | fuel, config, attempt =>
    -- STEP 1: mode dispatch
    if config.mode = ValidatorMode.disabled then
      some { is_valid := true
             confidence := 1
             issues := []
             corrections := none
             safety_flags := []
             reasoning := "Validation disabled by configuration" }
    else if config.mode = ValidatorMode.offline then
      some (_offline_validation llm_response medical_report conversation_history)
    else if config.mode = ValidatorMode.low_resource then
      some (_low_resource_validation llm_response medical_report)
    else
      -- STEP 2: initialize the client
      match clientInit attempt with
      | Except.error _ =>
        if config.allow_offline_fallback then
          some (_offline_validation llm_response medical_report conversation_history)
        else
          some { is_valid := false
                 confidence := 0
                 issues := ["Failed to initialize validator"]
                 corrections := none
                 safety_flags := ["API_ERROR"]
                 reasoning := "Could not connect to validation API" }
      | Except.ok _ =>
        -- STEPS 3-4: prompt construction
        let conversation_str := conversationStr conversation_history
        let prompt := groundingPrompt medical_report conversation_str llm_response
        -- STEP 5: remote call
        match oracle attempt prompt with
        | Except.error e =>
          if config.allow_offline_fallback then
            some (_offline_validation llm_response medical_report conversation_history)
          else
            some { is_valid := false
                   confidence := 0
                   issues := ["API validation failed"]
                   corrections := none
                   safety_flags := ["API_ERROR"]
                   reasoning := "Validation API error: " ++ e }
        | Except.ok response_text =>
          -- STEP 6: parse
          let result := _parse_validation_response jl response_text
          -- STEP 7: confidence threshold and retry
          if result.confidence < config.confidence_threshold then
            let result2 := { result with requires_review := true }
            if result2.retry_count < config.max_retries then
              match fuel with
              | 0 => none
              | fuel' + 1 =>
                match validate_response clientInit oracle jl llm_response
                    conversation_history medical_report fuel'
                    (retryConfig config) (attempt + 1) with
                | none => none
                | some retry_result =>
                  some { retry_result with retry_count := result2.retry_count + 1 }
            else some result2
          else some result

/-! ## Fingerprint engine and index manager (`apps/api/retriever.py`) -/

/-- Decimal rendering of a natural number, modelling Python's
`str(int)` / f-string interpolation of a non-negative integer. -/
def natStr (n : Nat) : String :=
  if n = 0 then "0" else ⟨((Nat.digits 10 n).reverse.map Nat.digitChar)⟩

/-- The `(st_size, int(st_mtime))` pair read from `os.stat`. Sizes and
mtimes are non-negative; the source truncates the float mtime with
`int(...)`, so mtimes live at whole-second resolution. -/
structure FileStat where
  st_size : Nat
  st_mtime : Nat
deriving DecidableEq, Repr

/-- Lexicographic sort of the glob result (`sorted(glob.glob(pattern))`;
Python's `sorted` on strings compares code points, as Lean's `String`
order does). -/
def sortPaths (paths : List String) : List String :=
  paths.insertionSort (· ≤ ·)

/-- The per-file payload `f"\x7bpath\x7d|\x7bstat.st_size\x7d|\x7bint(stat.st_mtime)\x7d"` hashed by
`_fingerprint_files`; a path whose `os.stat` raises `FileNotFoundError`
is skipped, i.e. contributes nothing to the hash stream. -/
def filePayload (stat : String → Option FileStat) (path : String) : String :=
  match stat path with
  | some st => path ++ "|" ++ natStr st.st_size ++ "|" ++ natStr st.st_mtime
  | none => ""

/-- The byte stream fed to the SHA-256 hasher by `_fingerprint_files`:
the concatenation, over the lexicographically sorted glob matches, of
each file's payload (`hasher.update` per file). -/
def fingerprintInput (stat : String → Option FileStat) (paths : List String) :
    String :=
  ((sortPaths paths).map (filePayload stat)).foldl (· ++ ·) ""

/-- `_fingerprint_files`, with the digest modelled by an explicit `hash`
parameter applied to the exact byte stream the source hashes
(`hash := sha256 hexdigest` in the running system; claims that need the
digest to separate distinct streams take injectivity of `hash` as a
hypothesis, the collision-freeness the source assumes of SHA-256). -/
def _fingerprint_files (hash : String → String)
    (stat : String → Option FileStat) (paths : List String) : String :=
  hash (fingerprintInput stat paths)

/-- `build_vectorstore`: `None` on an empty document list, otherwise the
split/embed/index pipeline, abstracted as the external collaborator
`splitEmbed` (text splitter + HuggingFace embeddings + FAISS). -/
def build_vectorstore {Doc Ix : Type}
    (splitEmbed : List Doc → Nat → Nat → String → Ix)
    (docs : List Doc) (chunk_size chunk_overlap : Nat) (model_name : String) :
    Option Ix :=
  if docs.isEmpty then none
  else some (splitEmbed docs chunk_size chunk_overlap model_name)

/-- The persisted `meta.json` contents, fields read with `dict.get`
(absent keys read as `None`). -/
structure PersistedMeta where
  kb_fingerprint : Option String
  embedding_model : Option String
deriving DecidableEq, Repr

/-- `_load_if_fresh`: reload the persisted index only when the stored
fingerprint and embedding-model id both match; any read/parse/load
failure (modelled by `none` in `readMeta`/`loadLocal`) yields `None`. -/
def _load_if_fresh {Ix : Type} (readMeta : Option PersistedMeta)
    (loadLocal : Option Ix) (expected_fp : String) (model_name : String) :
    Option Ix :=
  match readMeta with
  | none => none
  | some meta =>
    if meta.kb_fingerprint ≠ some expected_fp then none
    else if meta.embedding_model ≠ some model_name then none
    else loadLocal

/-- The status report dict returned by `build_or_load_index` (keys absent
from a given branch are `none`). -/
structure StatusReport where
  status : String
  kb_fingerprint : String
  embedding_model : Option String := none
  source : Option String := none
  built_at : Option Nat := none
  chunk_size : Option Nat := none
  chunk_overlap : Option Nat := none
deriving DecidableEq, Repr

/-- `make_retriever`: `None` for a missing vector store, otherwise the
store's retriever for the given `k`. -/
def make_retriever {Ix Ret : Type} (asRetriever : Ix → Nat → Ret)
    (vs : Option Ix) (k : Nat) : Option Ret :=
  match vs with
  | none => none
  | some v => some (asRetriever v k)

/-- `build_or_load_index`: fast-path load of a fresh persisted index,
else rebuild; an empty corpus yields status `"empty"` with no index and
no retriever. External collaborators: `hash`/`stat` (fingerprinting),
`readMeta`/`loadLocal` (persisted state), `splitEmbed`/`asRetriever`
(embedding backend), `now` (`time.time()`). `_persist_vectorstore` is
pure I/O and contributes nothing to the returned value. -/
def build_or_load_index {Doc Ix Ret : Type} (hash : String → String)
    (stat : String → Option FileStat) (readMeta : Option PersistedMeta)
    (loadLocal : Option Ix) (splitEmbed : List Doc → Nat → Nat → String → Ix)
    (asRetriever : Ix → Nat → Ret) (now : Nat)
    (docs : List Doc) (kbPaths : List String) (chunk_size chunk_overlap : Nat)
    (model_name : String) (k : Nat) :
    Option Ix × Option Ret × StatusReport :=
  let kb_fp := _fingerprint_files hash stat kbPaths
  match _load_if_fresh readMeta loadLocal kb_fp model_name with
  | some vs =>
    (some vs, make_retriever asRetriever (some vs) k,
     { status := "loaded"
       source := some "disk"
       kb_fingerprint := kb_fp
       embedding_model := some model_name })
  | none =>
    match build_vectorstore splitEmbed docs chunk_size chunk_overlap model_name with
    | none => (none, none, { status := "empty", kb_fingerprint := kb_fp })
    | some vs =>
      (some vs, make_retriever asRetriever (some vs) k,
       { status := "built"
         source := some "rebuild"
         kb_fingerprint := kb_fp
         embedding_model := some model_name
         built_at := some now
         chunk_size := some chunk_size
         chunk_overlap := some chunk_overlap })

/-! ## Structured-block extractor (`app.py`) -/

/-- Case-insensitive literal match (one branch of `re.I`): does `pat`
(given lowercase) start `s`, ignoring the case of `s`? Returns the
remainder after the match. -/
def matchCI : List Char → List Char → Option (List Char)
  | [], s => some s
  | _ :: _, [] => none
  | p :: ps, c :: cs => if c.toLower == p then matchCI ps cs else none

/-- Try to match `###\s*RISKS` (case-insensitive) at the start of `s`,
returning the remainder after `RISKS`. `\s*` is greedy and `RISKS`
starts with a non-space, so no backtracking can occur here. -/
def matchRisksAt (s : List Char) : Option (List Char) :=
  match s with
  | '#' :: '#' :: '#' :: rest =>
    matchCI "risks".data (rest.dropWhile isPySpace)
  | _ => none

/-- `re.search` scan for `###\s*RISKS\s*(.+)$` with `re.S | re.I`:
the first position where the heading matches with at least one
character left for `(.+)` wins; the returned list is the remainder
after `RISKS`. (Since the caller immediately `.strip()`s group 1, the
remainder is returned in place of group 1 itself: group 1 is the
remainder minus leading whitespace — except that when the remainder is
all whitespace, backtracking of `\s*` leaves its last character —
and both strip to the same string.) -/
def searchRisks : List Char → Option (List Char)
  | [] => none
  | c :: rest =>
    match matchRisksAt (c :: rest) with
    | some rem => if rem.isEmpty then searchRisks rest else some rem
    | none => searchRisks rest

/-- `extract_risks_block`: everything after `### RISKS`, sliced from the
first `\x7b` to the last `\x7d`; `None` when the text is empty, the heading is
absent, or no properly ordered brace pair exists. -/
def extract_risks_block (full_text : String) : Option String :=
  if full_text.data.isEmpty then none
  else
    match searchRisks full_text.data with
    | none => none
    | some rem =>
      let tail := pyStripL rem
      match firstIdxOf '\x7b' tail, lastIdxOf '\x7d' tail with
      | some s, some e =>
        if e ≤ s then none else some ⟨(tail.drop s).take (e + 1 - s)⟩
      | some _, none => none
      | none, _ => none

/-- `parse_risks_json`, parameterised by `json.loads` (`jl`;
`Except.error e` models `json.JSONDecodeError` with message `e`).
Returns `(data, error)` exactly as the source does. -/
def parse_risks_json (jl : String → Except String Json)
    (full_text : String) : Option Json × Option String :=
  match extract_risks_block full_text with
  | none => (none, some "No RISKS JSON block detected.")
  | some blk =>
    match jl blk with
    | Except.ok data =>
      match data with
      | Json.obj kvs =>
        if (jsonLookup "risk_flags" kvs).isSome then (some data, none)
        else (none, some "RISKS JSON parsed but missing \x27risk_flags\x27 key.")
      | _ => (none, some "RISKS JSON parsed but missing \x27risk_flags\x27 key.")
    | Except.error e => (none, some ("JSON parse error: " ++ e))

/-! ## Helper lemmas -/

/-- The emptiness test `len(issues) == 0` agrees with `List.isEmpty`. -/
lemma lengthBeqZero_eq_isEmpty (l : List String) : (l.length == 0) = l.isEmpty := by
  cases l <;> rfl

/-- Lengths of the two lists accumulated by the keyword loop, relative to
an arbitrary starting accumulator: each matching keyword adds exactly one
issue and one safety flag. -/
lemma keywordScan_foldl_len (resp : String) (mkIssue : String → String) :
    ∀ (kws : List (String × String)) (acc : List String × List String),
      ((kws.foldl
          (fun acc kf =>
            if strHas resp kf.1 then
              (acc.1 ++ [mkIssue kf.1], acc.2 ++ [kf.2])
            else acc)
          acc).1.length
        = acc.1.length + kws.countP (fun kf => strHas resp kf.1))
      ∧ ((kws.foldl
          (fun acc kf =>
            if strHas resp kf.1 then
              (acc.1 ++ [mkIssue kf.1], acc.2 ++ [kf.2])
            else acc)
          acc).2.length
        = acc.2.length + kws.countP (fun kf => strHas resp kf.1)) := by
  intro kws
  induction kws with
  | nil => intro acc; simp
  | cons kf rest ih =>
    intro acc
    by_cases h : strHas resp kf.1 = true
    · have h2 := ih (acc.1 ++ [mkIssue kf.1], acc.2 ++ [kf.2])
      simp only [List.foldl_cons, h, if_true, List.countP_cons]
      refine ⟨?_, ?_⟩
      · rw [h2.1]; simp [h]; omega
      · rw [h2.2]; simp [h]; omega
    · have h2 := ih acc
      simp [List.foldl_cons, List.countP_cons, h, h2.1, h2.2]

/-- Issue and flag counts of `keywordScan` both equal the number of
matching keywords. -/
lemma keywordScan_len (resp : String) (mkIssue : String → String)
    (kws : List (String × String)) :
    (keywordScan resp mkIssue kws).1.length
      = kws.countP (fun kf => strHas resp kf.1)
    ∧ (keywordScan resp mkIssue kws).2.length
      = kws.countP (fun kf => strHas resp kf.1) := by
  have h := keywordScan_foldl_len resp mkIssue kws ([], [])
  simpa [keywordScan] using h

/-- A match of a longer needle is a match of its front part. -/
lemma matchesAt_of_append (a b : List Char) :
    ∀ hay, matchesAt (a ++ b) hay = true → matchesAt a hay = true := by
  induction a with
  | nil => intro hay _; rfl
  | cons x xs ih =>
    intro hay h
    cases hay with
    | nil => simp [matchesAt] at h
    | cons y ys =>
      simp only [List.cons_append, matchesAt, Bool.and_eq_true] at h ⊢
      exact ⟨h.1, ih ys h.2⟩

/-- An occurrence of a longer needle is an occurrence of its front part:
Python `a + b in hay` implies `a in hay`. -/
lemma hasSub_of_append (a b : List Char) :
    ∀ hay, hasSub (a ++ b) hay = true → hasSub a hay = true := by
  intro hay
  induction hay with
  | nil =>
    intro h
    simpa [hasSub] using matchesAt_of_append a b [] (by simpa [hasSub] using h)
  | cons c rest ih =>
    intro h
    simp only [hasSub, Bool.or_eq_true] at h ⊢
    rcases h with h | h
    · exact Or.inl (matchesAt_of_append a b _ h)
    · exact Or.inr (ih h)

/-! ## Claim theorems: heuristic validators -/

/-- C9: Offline validation does not read the conversation history: for
any two histories and fixed answer and report, `_offline_validation`
returns identical results. -/
theorem offline_validation_history_noninterference
    (llm_response medical_report : String) (h1 h2 : List Message) :
    _offline_validation llm_response medical_report h1
      = _offline_validation llm_response medical_report h2 := rfl

/-- C10: every result of the Offline or LowResource heuristic validator
satisfies `is_valid = (issues is empty)`, and its safety-flag list has
exactly the same length as its issue list (one flag appended per detected
issue). -/
theorem heuristic_validators_verdict_invariant
    (llm_response medical_report : String)
    (conversation_history : List Message) :
    ((_offline_validation llm_response medical_report conversation_history).is_valid
        = (_offline_validation llm_response medical_report conversation_history).issues.isEmpty
      ∧ (_offline_validation llm_response medical_report conversation_history).safety_flags.length
        = (_offline_validation llm_response medical_report conversation_history).issues.length)
    ∧ ((_low_resource_validation llm_response medical_report).is_valid
        = (_low_resource_validation llm_response medical_report).issues.isEmpty
      ∧ (_low_resource_validation llm_response medical_report).safety_flags.length
        = (_low_resource_validation llm_response medical_report).issues.length) := by
  have hoff := keywordScan_len (strLower llm_response)
    (fun keyword => "Contains dangerous keyword: \x27" ++ keyword ++ "\x27")
    dangerous_keywords
  have hlow := keywordScan_len (strLower llm_response)
    (fun keyword => "CRITICAL: Contains \x27" ++ keyword ++ "\x27")
    critical_keywords
  refine ⟨⟨?_, ?_⟩, ?_, ?_⟩
  · simp only [_offline_validation]
    split <;> exact lengthBeqZero_eq_isEmpty _
  · simp only [_offline_validation]
    split
    · simp [hoff.1, hoff.2]
    · simp [hoff.1, hoff.2]
  · simp only [_low_resource_validation]
    exact lengthBeqZero_eq_isEmpty _
  · simp only [_low_resource_validation]
    simp [hlow.1, hlow.2]

/-- C2 counterexample: the answer "ignore doctor" (with an empty report)
is rejected by LowResource mode but accepted by Offline mode, so a
LowResource rejection does not imply an Offline rejection. -/
theorem low_resource_not_subset_offline_counterexample :
    (_low_resource_validation "ignore doctor" "").is_valid = false
    ∧ (_offline_validation "ignore doctor" "" []).is_valid = true := by
  constructor <;> rfl

/-- C2 (amended): of LowResource's three critical phrases only
"stop taking medication" is covered by Offline's keyword set (via its
"stop taking" keyword): whenever the lowercased answer contains
"stop taking medication", LowResource rejects and Offline rejects too.
For the other two critical phrases ("ignore doctor",
"don\x27t seek medical help") Offline may accept. -/
theorem low_resource_stop_taking_implies_offline_invalid
    (llm_response medical_report : String) (conversation_history : List Message)
    (h : strHas (strLower llm_response) "stop taking medication" = true) :
    (_low_resource_validation llm_response medical_report).is_valid = false
    ∧ (_offline_validation llm_response medical_report conversation_history).is_valid
        = false := by
  have hshort : strHas (strLower llm_response) "stop taking" = true := by
    have hdecomp :
        ("stop taking medication" : String).data
          = ("stop taking" : String).data ++ (" medication" : String).data := rfl
    have := hasSub_of_append ("stop taking" : String).data
      (" medication" : String).data (strLower llm_response).data
    unfold strHas at h ⊢
    rw [hdecomp] at h
    exact this h
  constructor
  · have hcnt : 0 < critical_keywords.countP
        (fun kf => strHas (strLower llm_response) kf.1) := by
      rw [List.countP_pos_iff]
      exact ⟨("stop taking medication", "CRITICAL_SAFETY"), by simp [critical_keywords], h⟩
    have hlen := (keywordScan_len (strLower llm_response)
      (fun keyword => "CRITICAL: Contains \x27" ++ keyword ++ "\x27")
      critical_keywords).1
    simp only [_low_resource_validation]
    have : (keywordScan (strLower llm_response)
        (fun keyword => "CRITICAL: Contains \x27" ++ keyword ++ "\x27")
        critical_keywords).1.length ≠ 0 := by omega
    simpa using this
  · have hcnt : 0 < dangerous_keywords.countP
        (fun kf => strHas (strLower llm_response) kf.1) := by
      rw [List.countP_pos_iff]
      exact ⟨("stop taking", "DANGEROUS_MEDICAL_ADVICE"),
        by simp [dangerous_keywords], hshort⟩
    have hlen := (keywordScan_len (strLower llm_response)
      (fun keyword => "Contains dangerous keyword: \x27" ++ keyword ++ "\x27")
      dangerous_keywords).1
    simp only [_offline_validation]
    split
    · simp
    · have : (keywordScan (strLower llm_response)
          (fun keyword => "Contains dangerous keyword: \x27" ++ keyword ++ "\x27")
          dangerous_keywords).1.length ≠ 0 := by omega
      simpa using this

/-- C2 amended-claim witness: on the concrete answer
"You should stop taking medication today" both validators reject. -/
theorem low_resource_stop_taking_implies_offline_invalid_w :
    (_low_resource_validation "You should stop taking medication today" "r").is_valid
        = false
    ∧ (_offline_validation "You should stop taking medication today" "r" []).is_valid
        = false :=
  low_resource_stop_taking_implies_offline_invalid
    "You should stop taking medication today" "r" [] (by decide)

/-- C8: in Disabled mode, `validate_response` returns
`is_valid = true`, `confidence = 1` (the maximal value), empty issue
list and empty safety-flag list, for every input, every remaining
configuration field, every external-collaborator behaviour and every
fuel. -/
theorem disabled_mode_escape_hatch
    (clientInit : Nat → Except String Unit)
    (oracle : Nat → String → Except String String)
    (jl : String → Except String Json)
    (llm_response : String) (conversation_history : List Message)
    (medical_report : String) (threshold : ℚ) (mr : Nat)
    (fallback logging : Bool) (fuel attempt : Nat) :
    validate_response clientInit oracle jl llm_response conversation_history
      medical_report fuel
      { mode := ValidatorMode.disabled
        confidence_threshold := threshold
        max_retries := mr
        allow_offline_fallback := fallback
        enable_logging := logging } attempt
    = some { is_valid := true
             confidence := 1
             issues := []
             corrections := none
             safety_flags := []
             reasoning := "Validation disabled by configuration" } := by
  simp [validate_response]

/-! ## Claim theorems: Enabled-mode validator -/

/-- `_parse_validation_response` never sets `retry_count`: both its
success and its error branch leave the dataclass default 0. This is the
value the source's retry guard compares against `max_retries`. -/
lemma parse_retry_count_eq_zero (jl : String → Except String Json)
    (response_text : String) :
    (_parse_validation_response jl response_text).retry_count = 0 := by
  rcases h : jl (stripFences response_text) with e | j <;>
    simp [_parse_validation_response, h]

/-- C3: in Enabled mode, when the remote validator call raises, the
function returns exactly what Offline mode would return for the same
answer, history and report if fallback is allowed, and the hard
`is_valid=false` / `API_ERROR` result if it is not. -/
theorem enabled_api_failure_fallback
    (clientInit : Nat → Except String Unit)
    (oracle : Nat → String → Except String String)
    (jl : String → Except String Json)
    (llm_response : String) (conversation_history : List Message)
    (medical_report : String) (config : GroundingConfig)
    (fuel attempt : Nat) (e : String)
    (hmode : config.mode = ValidatorMode.enabled)
    (hinit : clientInit attempt = Except.ok ())
    (hfail : oracle attempt
        (groundingPrompt medical_report (conversationStr conversation_history)
          llm_response)
      = Except.error e) :
    (config.allow_offline_fallback = true →
      validate_response clientInit oracle jl llm_response conversation_history
          medical_report fuel config attempt
        = validate_response clientInit oracle jl llm_response conversation_history
            medical_report fuel { config with mode := ValidatorMode.offline } attempt
      ∧ validate_response clientInit oracle jl llm_response conversation_history
          medical_report fuel config attempt
        = some (_offline_validation llm_response medical_report
            conversation_history))
    ∧ (config.allow_offline_fallback = false →
      validate_response clientInit oracle jl llm_response conversation_history
          medical_report fuel config attempt
        = some { is_valid := false
                 confidence := 0
                 issues := ["API validation failed"]
                 corrections := none
                 safety_flags := ["API_ERROR"]
                 reasoning := "Validation API error: " ++ e }) := by
  constructor
  · intro hfb
    constructor
    · simp [validate_response, hmode, hinit, hfail, hfb]
    · simp [validate_response, hmode, hinit, hfail, hfb]
  · intro hfb
    simp [validate_response, hmode, hinit, hfail, hfb]

/-- C3 witness: concrete collaborators whose remote call raises "boom";
with fallback allowed the Enabled result is the Offline result. -/
theorem enabled_api_failure_fallback_w :
    validate_response (fun _ => Except.ok ()) (fun _ _ => Except.error "boom")
        (fun _ => Except.ok Json.null) "ans" [] "rep" 3
        { mode := ValidatorMode.enabled } 0
      = some (_offline_validation "ans" "rep" []) :=
  ((enabled_api_failure_fallback (fun _ => Except.ok ())
      (fun _ _ => Except.error "boom") (fun _ => Except.ok Json.null)
      "ans" [] "rep" { mode := ValidatorMode.enabled } 3 0 "boom"
      rfl rfl rfl).1 rfl).2

/-- C1 (the code as written): with an always-successful remote validator
whose every parsed response has confidence 0 (hence below every positive
threshold, including every 0.95-relaxed one), the Enabled-mode retry
recursion never returns, at any recursion depth: the retry guard
compares the freshly parsed `retry_count` — which is always 0 — to
`max_retries`, so every nested invocation retries again. In particular
the recursion depth is not bounded by `max_retries` and no final result
with `retry_count = max_retries` is ever produced. -/
theorem retry_recursion_unbounded
    (clientInit : Nat → Except String Unit)
    (oracle : Nat → String → Except String String)
    (jl : String → Except String Json)
    (llm_response : String) (conversation_history : List Message)
    (medical_report : String)
    (hinit : ∀ n, clientInit n = Except.ok ())
    (horacle : ∀ n p, ∃ t, oracle n p = Except.ok t ∧
        (_parse_validation_response jl t).confidence = 0) :
    ∀ (fuel : Nat) (config : GroundingConfig) (attempt : Nat),
      config.mode = ValidatorMode.enabled →
      0 < config.confidence_threshold →
      0 < config.max_retries →
      validate_response clientInit oracle jl llm_response conversation_history
        medical_report fuel config attempt = none := by
  intro fuel
  induction fuel with
  | zero =>
    intro config attempt hmode hthr hmr
    obtain ⟨t, hot, hconf⟩ := horacle attempt
      (groundingPrompt medical_report (conversationStr conversation_history)
        llm_response)
    rw [validate_response.eq_def]
    simp [hmode, hinit attempt, hot, hconf, parse_retry_count_eq_zero, hthr, hmr]
  | succ fuel ih =>
    intro config attempt hmode hthr hmr
    obtain ⟨t, hot, hconf⟩ := horacle attempt
      (groundingPrompt medical_report (conversationStr conversation_history)
        llm_response)
    have hrec := ih (retryConfig config) (attempt + 1)
      (by simp [retryConfig, hmode])
      (by simp only [retryConfig]; positivity)
      (by simpa [retryConfig] using hmr)
    rw [validate_response.eq_def]
    simp [hmode, hinit attempt, hot, hconf, parse_retry_count_eq_zero, hthr, hmr,
      hrec]

/-- C1 witness: concrete collaborators realising the scenario (remote
always답 returns text parsing to confidence 0) at threshold 0.6 and
`max_retries = 2`: even with recursion depth 7 available, no result is
returned. -/
theorem retry_recursion_unbounded_w :
    validate_response (fun _ => Except.ok ()) (fun _ _ => Except.ok "x")
        (fun _ => Except.ok (Json.obj [])) "ans" [] "rep" 7
        { mode := ValidatorMode.enabled
          confidence_threshold := 3/5
          max_retries := 2 } 0
      = none :=
  retry_recursion_unbounded (fun _ => Except.ok ()) (fun _ _ => Except.ok "x")
    (fun _ => Except.ok (Json.obj [])) "ans" [] "rep"
    (fun _ => rfl) (fun _ _ => ⟨"x", rfl, rfl⟩)
    7 { mode := ValidatorMode.enabled
        confidence_threshold := 3/5
        max_retries := 2 } 0 rfl (by norm_num) (by norm_num)

/-! ## Claim theorems: index manager and extractor -/

/-- C6: when no fresh persisted index can be loaded and the corpus
document list is empty, `build_or_load_index` returns status `"empty"`
with no index and no retriever (and, being a total function, raises no
exception). -/
theorem empty_corpus_build_or_load {Doc Ix Ret : Type}
    (hash : String → String) (stat : String → Option FileStat)
    (readMeta : Option PersistedMeta) (loadLocal : Option Ix)
    (splitEmbed : List Doc → Nat → Nat → String → Ix)
    (asRetriever : Ix → Nat → Ret) (now : Nat)
    (docs : List Doc) (kbPaths : List String)
    (chunk_size chunk_overlap : Nat) (model_name : String) (k : Nat)
    (hload : _load_if_fresh readMeta loadLocal
        (_fingerprint_files hash stat kbPaths) model_name = (none : Option Ix))
    (hdocs : docs = []) :
    build_or_load_index hash stat readMeta loadLocal splitEmbed asRetriever now
      docs kbPaths chunk_size chunk_overlap model_name k
    = (none, none,
       { status := "empty"
         kb_fingerprint := _fingerprint_files hash stat kbPaths }) := by
  subst hdocs
  simp [build_or_load_index, hload, build_vectorstore]

/-- C6 witness: with no persisted metadata and an empty corpus, the
manager reports `"empty"` and returns neither index nor retriever. -/
theorem empty_corpus_build_or_load_w :
    @build_or_load_index Unit Unit Unit
      (fun s => s) (fun _ => none) none none (fun _ _ _ _ => ()) (fun _ _ => ())
      0 [] [] 750 150 "sentence-transformers/all-MiniLM-L6-v2" 8
    = (none, none,
       { status := "empty"
         kb_fingerprint :=
           _fingerprint_files (fun s => s) (fun _ => none) [] }) :=
  empty_corpus_build_or_load (fun s => s) (fun _ => none) none none
    (fun _ _ _ _ => ()) (fun _ _ => ()) 0 [] [] 750 150
    "sentence-transformers/all-MiniLM-L6-v2" 8 rfl rfl

/-- C7: the structured-block extractor finds the heading
case-insensitively, slices the tail from the first opening brace to the
last closing brace, and parses it; on
`"### RISKS\n\x7b\"risk_flags\": []\x7d"` it yields the object with the
(empty) `risk_flags` list; a missing heading or brace pair yields the
"not found" result, which is distinct from every "found but invalid
JSON" result. -/
theorem risks_block_extractor_contract (jl : String → Except String Json)
    (hjl : jl "\x7b\"risk_flags\": []\x7d"
      = Except.ok (Json.obj [("risk_flags", Json.arr [])])) :
    extract_risks_block "### RISKS\n\x7b\"risk_flags\": []\x7d"
        = some "\x7b\"risk_flags\": []\x7d"
    ∧ extract_risks_block "### risks\n\x7b\"risk_flags\": []\x7d"
        = some "\x7b\"risk_flags\": []\x7d"
    ∧ parse_risks_json jl "### RISKS\n\x7b\"risk_flags\": []\x7d"
        = (some (Json.obj [("risk_flags", Json.arr [])]), none)
    ∧ (∀ full_text, extract_risks_block full_text = none →
        parse_risks_json jl full_text
          = (none, some "No RISKS JSON block detected."))
    ∧ (∀ (jl' : String → Except String Json) full_text blk e,
        extract_risks_block full_text = some blk →
        jl' blk = Except.error e →
        parse_risks_json jl' full_text
          = (none, some ("JSON parse error: " ++ e)))
    ∧ (∀ e : String,
        ("No RISKS JSON block detected." : String)
          ≠ "JSON parse error: " ++ e) := by
  refine ⟨by decide, by decide, ?_, ?_, ?_, ?_⟩
  · have hblk : extract_risks_block "### RISKS\n\x7b\"risk_flags\": []\x7d"
        = some "\x7b\"risk_flags\": []\x7d" := by decide
    simp [parse_risks_json, hblk, hjl, jsonLookup]
  · intro full_text hnone
    simp [parse_risks_json, hnone]
  · intro jl' full_text blk e hblk herr
    simp [parse_risks_json, hblk, herr]
  · intro e heq
    have hdata := congrArg String.data heq
    rw [String.data_append] at hdata
    simp at hdata

/-- C7 witness: a concrete `json.loads` that parses the example block,
applied to the example input. -/
theorem risks_block_extractor_contract_w :
    parse_risks_json
        (fun s =>
          if s = "\x7b\"risk_flags\": []\x7d" then
            Except.ok (Json.obj [("risk_flags", Json.arr [])])
          else Except.error "scratch")
        "### RISKS\n\x7b\"risk_flags\": []\x7d"
      = (some (Json.obj [("risk_flags", Json.arr [])]), none) :=
  (risks_block_extractor_contract
      (fun s =>
        if s = "\x7b\"risk_flags\": []\x7d" then
          Except.ok (Json.obj [("risk_flags", Json.arr [])])
        else Except.error "scratch")
      (by simp)).2.2.1

/-! ## Claim theorems: fingerprint engine -/

/-- Strings with equal character data are equal. -/
lemma string_data_inj {s t : String} (h : s.data = t.data) : s = t := by
  cases s; cases t; exact congrArg String.mk h

/-- Sorting is invariant under permutation of the input: the
lexicographically sorted path sequence of a file set does not depend on
the enumeration order. -/
lemma sortPaths_eq_of_perm (l1 l2 : List String) (h : l1.Perm l2) :
    sortPaths l1 = sortPaths l2 :=
  List.eq_of_perm_of_sorted
    (((List.perm_insertionSort _ l1).trans h).trans
      (List.perm_insertionSort _ l2).symm)
    (List.sorted_insertionSort _ l1) (List.sorted_insertionSort _ l2)

/-- C4: the fingerprint is insensitive to the enumeration order of the
file set: two enumerations of the same paths (hence of identical
(path, size, mtime) triples, the stats being a function of the path)
produce the same digest, because the digest is computed over the
lexicographically sorted path sequence. -/
theorem fingerprint_order_insensitive (hash : String → String)
    (stat : String → Option FileStat) (l1 l2 : List String)
    (hperm : l1.Perm l2) :
    _fingerprint_files hash stat l1 = _fingerprint_files hash stat l2 := by
  unfold _fingerprint_files fingerprintInput
  rw [sortPaths_eq_of_perm l1 l2 hperm]

/-- C4 witness: two enumeration orders of the same two files. -/
theorem fingerprint_order_insensitive_w :
    _fingerprint_files (fun s => s) (fun _ => some ⟨1, 2⟩) ["b", "a"]
      = _fingerprint_files (fun s => s) (fun _ => some ⟨1, 2⟩) ["a", "b"] :=
  fingerprint_order_insensitive (fun s => s) (fun _ => some ⟨1, 2⟩)
    ["b", "a"] ["a", "b"] (by decide)

/-- `Nat.digitChar` is injective on decimal digits. -/
lemma digitChar_inj_lt : ∀ a < 10, ∀ b < 10,
    Nat.digitChar a = Nat.digitChar b → a = b := by decide

/-- No decimal digit renders as the separator bar. -/
lemma digitChar_ne_bar : ∀ d < 10, Nat.digitChar d ≠ '|' := by decide

/-- Mapping `Nat.digitChar` over lists of decimal digits is injective. -/
lemma map_digitChar_inj : ∀ (l1 : List ℕ), (∀ d ∈ l1, d < 10) →
    ∀ (l2 : List ℕ), (∀ d ∈ l2, d < 10) →
    l1.map Nat.digitChar = l2.map Nat.digitChar → l1 = l2 := by
  intro l1
  induction l1 with
  | nil =>
    intro _ l2 _ h
    cases l2 with
    | nil => rfl
    | cons b bs => simp at h
  | cons a as ih =>
    intro h1 l2 h2 h
    cases l2 with
    | nil => simp at h
    | cons b bs =>
      simp only [List.map_cons, List.cons.injEq] at h
      have hab : a = b :=
        digitChar_inj_lt a (h1 a (List.mem_cons_self a as))
          b (h2 b (List.mem_cons_self b bs)) h.1
      have htail : as = bs :=
        ih (fun d hd => h1 d (List.mem_cons_of_mem a hd)) bs
          (fun d hd => h2 d (List.mem_cons_of_mem b hd)) h.2
      rw [hab, htail]

/-- `natStr` (Python decimal rendering) is injective. -/
lemma natStr_inj : Function.Injective natStr := by
  intro m n h
  unfold natStr at h
  by_cases hm : m = 0 <;> by_cases hn : n = 0
  · rw [hm, hn]
  · exfalso
    rw [if_pos hm, if_neg hn] at h
    have hd : ['0'] = (Nat.digits 10 n).reverse.map Nat.digitChar :=
      congrArg String.data h
    rcases hrev : (Nat.digits 10 n).reverse with _ | ⟨d, ds⟩
    · rw [hrev] at hd; simp at hd
    · rw [hrev] at hd
      simp only [List.map_cons, List.cons.injEq] at hd
      have hds : ds = [] := by
        have := hd.2.symm
        simpa using this
      have hd0 : d = 0 := by
        have hdmem : d ∈ Nat.digits 10 n := by
          have : d ∈ (Nat.digits 10 n).reverse := by rw [hrev]; simp
          exact List.mem_reverse.mp this
        have hlt : d < 10 := Nat.digits_lt_base (by norm_num) hdmem
        exact digitChar_inj_lt d hlt 0 (by norm_num) hd.1.symm
      have hdig : Nat.digits 10 n = [0] := by
        have : (Nat.digits 10 n).reverse = [0] := by rw [hrev, hd0, hds]
        have h2 := congrArg List.reverse this
        simpa using h2
      have : n = 0 := by
        have := Nat.ofDigits_digits 10 n
        rw [hdig] at this
        simpa [Nat.ofDigits_cons, Nat.ofDigits_nil] using this.symm
      exact hn this
  · exfalso
    rw [if_neg hm, if_pos hn] at h
    have hd : (Nat.digits 10 m).reverse.map Nat.digitChar = ['0'] :=
      congrArg String.data h
    rcases hrev : (Nat.digits 10 m).reverse with _ | ⟨d, ds⟩
    · rw [hrev] at hd; simp at hd
    · rw [hrev] at hd
      simp only [List.map_cons, List.cons.injEq] at hd
      have hds : ds = [] := by
        have := hd.2
        simpa using this
      have hd0 : d = 0 := by
        have hdmem : d ∈ Nat.digits 10 m := by
          have : d ∈ (Nat.digits 10 m).reverse := by rw [hrev]; simp
          exact List.mem_reverse.mp this
        have hlt : d < 10 := Nat.digits_lt_base (by norm_num) hdmem
        exact digitChar_inj_lt d hlt 0 (by norm_num) hd.1
      have hdig : Nat.digits 10 m = [0] := by
        have : (Nat.digits 10 m).reverse = [0] := by rw [hrev, hd0, hds]
        have h2 := congrArg List.reverse this
        simpa using h2
      have : m = 0 := by
        have := Nat.ofDigits_digits 10 m
        rw [hdig] at this
        simpa [Nat.ofDigits_cons, Nat.ofDigits_nil] using this.symm
      exact hm this
  · rw [if_neg hm, if_neg hn] at h
    have hd : (Nat.digits 10 m).reverse.map Nat.digitChar
        = (Nat.digits 10 n).reverse.map Nat.digitChar :=
      congrArg String.data h
    have hrev := map_digitChar_inj (Nat.digits 10 m).reverse
      (fun d hdm =>
        Nat.digits_lt_base (by norm_num) (List.mem_reverse.mp hdm))
      (Nat.digits 10 n).reverse
      (fun d hdn =>
        Nat.digits_lt_base (by norm_num) (List.mem_reverse.mp hdn))
      hd
    have hdig : Nat.digits 10 m = Nat.digits 10 n :=
      List.reverse_injective hrev
    calc m = Nat.ofDigits 10 (Nat.digits 10 m) :=
        (Nat.ofDigits_digits 10 m).symm
      _ = Nat.ofDigits 10 (Nat.digits 10 n) := by rw [hdig]
      _ = n := Nat.ofDigits_digits 10 n

/-- The separator bar never occurs in a decimal rendering. -/
lemma bar_not_mem_natStr (n : Nat) : '|' ∉ (natStr n).data := by
  unfold natStr
  by_cases hn : n = 0
  · rw [if_pos hn]; decide
  · rw [if_neg hn]
    intro hmem
    have hmem2 : '|' ∈ (Nat.digits 10 n).reverse.map Nat.digitChar := hmem
    rw [List.mem_map] at hmem2
    obtain ⟨d, hd, hdc⟩ := hmem2
    have hlt : d < 10 :=
      Nat.digits_lt_base (by norm_num) (List.mem_reverse.mp hd)
    exact digitChar_ne_bar d hlt hdc

/-- A bar-separated concatenation splits uniquely when the front part
contains no bar. -/
lemma bar_split_unique : ∀ (front : List Char), '|' ∉ front →
    ∀ (front' : List Char), '|' ∉ front' →
    ∀ (back back' : List Char),
      front ++ '|' :: back = front' ++ '|' :: back' →
      front = front' ∧ back = back' := by
  intro front
  induction front with
  | nil =>
    intro _ front' hf' back back' h
    cases front' with
    | nil =>
      simp only [List.nil_append, List.cons.injEq] at h
      exact ⟨rfl, h.2⟩
    | cons a as =>
      simp only [List.nil_append, List.cons_append, List.cons.injEq] at h
      exact absurd (h.1 ▸ List.mem_cons_self a as) (h.1 ▸ hf')
  | cons a as ih =>
    intro hf front' hf' back back' h
    cases front' with
    | nil =>
      simp only [List.cons_append, List.nil_append, List.cons.injEq] at h
      exact absurd (h.1 ▸ List.mem_cons_self a as) (fun hm => hf (h.1 ▸ hm))
    | cons a' as' =>
      simp only [List.cons_append, List.cons.injEq] at h
      have htail := ih (fun hm => hf (List.mem_cons_of_mem a hm)) as'
        (fun hm => hf' (List.mem_cons_of_mem a' hm)) back back' h.2
      exact ⟨by rw [h.1, htail.1], htail.2⟩

/-- Two payloads for the same path with different stats differ: the path
part cancels, the size parts are digit strings free of the separator,
and decimal rendering is injective. -/
lemma filePayload_ne (stat stat' : String → Option FileStat) (p : String)
    (st st' : FileStat) (hst : stat p = some st) (hst' : stat' p = some st')
    (hne : st ≠ st') :
    filePayload stat p ≠ filePayload stat' p := by
  intro h
  unfold filePayload at h
  rw [hst, hst'] at h
  have hd := congrArg String.data h
  have hbar : ("|" : String).data = ['|'] := rfl
  simp only [String.data_append, hbar, List.append_assoc,
    List.singleton_append] at hd
  have hd2 := List.append_cancel_left hd
  injection hd2 with hhead htail
  have hsplit := bar_split_unique (natStr st.st_size).data
    (bar_not_mem_natStr st.st_size) (natStr st'.st_size).data
    (bar_not_mem_natStr st'.st_size) (natStr st.st_mtime).data
    (natStr st'.st_mtime).data htail
  have hsize : st.st_size = st'.st_size :=
    natStr_inj (string_data_inj hsplit.1)
  have hmtime : st.st_mtime = st'.st_mtime :=
    natStr_inj (string_data_inj hsplit.2)
  apply hne
  cases st; cases st'
  simp only at hsize hmtime
  rw [hsize, hmtime]

/-- The character stream of a list of strings, in order (proof-side view
of the successive `hasher.update` calls). -/
def catD : List String → List Char
  | [] => []
  | s :: rest => s.data ++ catD rest

lemma catD_append : ∀ (l1 l2 : List String),
    catD (l1 ++ l2) = catD l1 ++ catD l2 := by
  intro l1 l2
  induction l1 with
  | nil => simp [catD]
  | cons x xs ih => simp [catD, ih]

/-- The left fold of string concatenation yields the character stream. -/
lemma foldl_append_data : ∀ (l : List String) (init : String),
    (l.foldl (· ++ ·) init).data = init.data ++ catD l := by
  intro l
  induction l with
  | nil => intro init; simp [catD]
  | cons x xs ih =>
    intro init
    simp only [List.foldl_cons, catD]
    rw [ih (init ++ x), String.data_append, List.append_assoc]

/-- C5: changing one file's byte size or integer-second modification
time changes the fingerprint, provided the digest (`hash`, SHA-256 in
the running system) separates distinct input streams — the
collision-freeness the source relies on. Paths are distinct, as glob
results are. -/
theorem fingerprint_change_sensitivity (hash : String → String)
    (stat stat' : String → Option FileStat) (paths : List String)
    (p : String) (st st' : FileStat)
    (hinj : Function.Injective hash)
    (hnd : paths.Nodup) (hp : p ∈ paths)
    (hst : stat p = some st) (hst' : stat' p = some st')
    (hne : st ≠ st')
    (hsame : ∀ q, q ≠ p → stat' q = stat q) :
    _fingerprint_files hash stat paths ≠ _fingerprint_files hash stat' paths := by
  intro h
  have hinput : fingerprintInput stat paths = fingerprintInput stat' paths :=
    hinj h
  have hpermS : (sortPaths paths).Perm paths := List.perm_insertionSort _ _
  have hndS : (sortPaths paths).Nodup := (hpermS.nodup_iff).mpr hnd
  have hpS : p ∈ sortPaths paths := hpermS.mem_iff.mpr hp
  obtain ⟨l1, l2, hdecomp⟩ := List.append_of_mem hpS
  rw [hdecomp] at hndS
  have hdisj := List.disjoint_of_nodup_append hndS
  have hn1 : p ∉ l1 := fun hm => hdisj hm (List.mem_cons_self p l2)
  have hn2 : p ∉ l2 :=
    (List.nodup_cons.mp (hndS.of_append_right)).1
  have hmap1 : l1.map (filePayload stat') = l1.map (filePayload stat) :=
    List.map_congr_left (fun q hq => by
      unfold filePayload
      rw [hsame q (fun hqp => hn1 (hqp ▸ hq))])
  have hmap2 : l2.map (filePayload stat') = l2.map (filePayload stat) :=
    List.map_congr_left (fun q hq => by
      unfold filePayload
      rw [hsame q (fun hqp => hn2 (hqp ▸ hq))])
  unfold fingerprintInput at hinput
  rw [hdecomp] at hinput
  have hd := congrArg String.data hinput
  rw [foldl_append_data, foldl_append_data] at hd
  simp only [List.map_append, List.map_cons, catD_append, catD, hmap1, hmap2,
    List.nil_append, List.append_assoc] at hd
  have hd2 := List.append_cancel_left hd
  have hd3 := List.append_cancel_right hd2
  exact filePayload_ne stat stat' p st st' hst hst' hne
    (string_data_inj hd3)

/-- C5 witness: one file whose mtime moves from 2 to 3 changes the
(injectively hashed) fingerprint. -/
theorem fingerprint_change_sensitivity_w :
    _fingerprint_files (fun s => s)
        (fun q => if q = "a" then some ⟨1, 2⟩ else none) ["a"]
      ≠ _fingerprint_files (fun s => s)
        (fun q => if q = "a" then some ⟨1, 3⟩ else none) ["a"] :=
  fingerprint_change_sensitivity (fun s => s)
    (fun q => if q = "a" then some ⟨1, 2⟩ else none)
    (fun q => if q = "a" then some ⟨1, 3⟩ else none) ["a"] "a" ⟨1, 2⟩ ⟨1, 3⟩
    (fun _ _ hxy => hxy) (by decide) (by decide) (by simp) (by simp)
    (by decide) (fun q hq => by simp [hq])
